import Mathlib

/-!
Verification of the Luau playground host layer (`src/wasm/src/playground.cpp`).

This file gives a shallow embedding of the host-side orchestration code:
the JSON value serializer (`serializeValueToJson` / `serializeTableToJson`),
the print capture (`playgroundPrint`), module registration and resolution
(`luau_add_module`, `luau_set_source`, `normalizeModulePath`, `findModule`,
the analysis file resolver's `findSource` / `readSource`), the execution entry
point (`luau_execute`) and the stack-trace building error handler
(`errorHandler`).  Machine doubles are modelled as an inductive type with a
rational payload for finite values; the collaborator VM (compiler, loader,
interpreter) is opaque, so script behaviour enters the model as data.
-/

-- ============================================================================
-- String helpers mirroring the C++ loops
-- ============================================================================

/-- Join a list of strings with "," between items, mirroring the
`if (!first) out += ","` loops of the serializer. -/
def commaJoin : List String → String
  | [] => ""
  | [s] => s
  | s :: rest => s ++ "," ++ commaJoin rest

/-- Join with a tab character, mirroring the `if (i > 1) line += "\t"` loop of
`playgroundPrint`. -/
def tabJoin : List String → String
  | [] => ""
  | [s] => s
  | s :: rest => s ++ "\t" ++ tabJoin rest

/-- Join with a newline, used to state the transcript shape. -/
def newlineJoin : List String → String
  | [] => ""
  | [s] => s
  | s :: rest => s ++ "\n" ++ newlineJoin rest

/-- Drop trailing characters satisfying `p` (used to model how the output of
the printf `g` conversion has its trailing zeros removed). -/
def dropTrailing (p : Char → Bool) (s : String) : String :=
  String.mk ((s.data.reverse.dropWhile p).reverse)

/-- Lower-case hex digit. -/
def hexDigit (n : ℕ) : Char :=
  if n < 10 then Char.ofNat (48 + n) else Char.ofNat (87 + n)

/-- Four-digit lower-case hex rendering, as the `\u%04x` escape in
`json::escape` produces for control characters. -/
def hex4 (n : ℕ) : String :=
  String.mk [hexDigit (n / 4096 % 16), hexDigit (n / 256 % 16),
    hexDigit (n / 16 % 16), hexDigit (n % 16)]

/-- Model of `json::escape` from playground.cpp, one character at a time. -/
def jsonEscapeChar (c : Char) : String :=
  if c = '"' then "\\\""
  else if c = '\\' then "\\\\"
  else if c = '\n' then "\\n"
  else if c = '\r' then "\\r"
  else if c = '\t' then "\\t"
  else if c.toNat < 32 then "\\u" ++ hex4 c.toNat
  else String.singleton c

/-- Model of `json::escape` over a whole string. -/
def jsonEscape (s : String) : String :=
  String.join (s.data.map jsonEscapeChar)

/-- Model of `json::string`: quoted, escaped string literal. -/
def jsonStringLit (s : String) : String :=
  "\"" ++ jsonEscape s ++ "\""

/-- Check that the first list starts with the second one. -/
def listStartsWith : List Char → List Char → Bool
  | _, [] => true
  | [], _ :: _ => false
  | a :: as, b :: bs => a = b && listStartsWith as bs

/-- Check that `s` ends with `t` (used to state the shape of stack frames). -/
def strEndsWith (s t : String) : Bool :=
  listStartsWith s.data.reverse t.data.reverse

-- ============================================================================
-- Number model: machine doubles as nan / inf / finite rationals
-- ============================================================================

/-- A Luau runtime number (a machine double): NaN, a signed infinity, or a
finite value modelled as a rational. -/
inductive LuauNumber where
  | nan
  | inf (pos : Bool)
  | finite (q : ℚ)
  deriving DecidableEq, Repr

/-- Model of `static_cast<long long>(num)`: truncation toward zero of a finite
double.  (The 64-bit range restriction of the cast is not modelled; outside
that range the C++ cast is undefined behaviour.) -/
def truncInt (q : ℚ) : ℤ :=
  Int.tdiv q.num (q.den : ℤ)

/-- Exponent suffix of printf `g` scientific output: sign and at least two
digits, for example `e+10` or `e-05`. -/
def expSuffix (e : ℤ) : String :=
  let a := e.natAbs
  "e" ++ (if e < 0 then "-" else "+") ++ (if a < 10 then "0" ++ toString a else toString a)

/-- Decimal-exponent search, upward: the smallest `e` with `n / d < 10 ^
(e + 1)`, for `d ≤ n` (fuel-bounded; the fuel covers the full double range). -/
def decExpSearchUp (n d : ℕ) : ℕ → ℕ → ℕ
  | 0, e => e
  | fuel + 1, e => if n < d * 10 ^ (e + 1) then e else decExpSearchUp n d fuel (e + 1)

/-- Decimal-exponent search, downward: the smallest `k ≥ 1` with `10 ^ (-k)
≤ n / d`, for `n < d` (fuel-bounded). -/
def decExpSearchDown (n d : ℕ) : ℕ → ℕ → ℕ
  | 0, k => k
  | fuel + 1, k => if d ≤ n * 10 ^ k then k else decExpSearchDown n d fuel (k + 1)

/-- The decimal exponent of the positive rational `n / d`: the unique `e`
with `10 ^ e ≤ n / d < 10 ^ (e + 1)` (within the double range covered by the
search fuel). -/
def decExp (n d : ℕ) : ℤ :=
  if d ≤ n then Int.ofNat (decExpSearchUp n d 1100 0)
  else Int.negSucc (decExpSearchDown n d 1100 1 - 1)

/-- `round ((n / d) * 10 ^ s)` computed over naturals:
`⌊x + 1/2⌋ = ⌊(2a + b) / (2b)⌋` for `x = a / b`. -/
def roundScaled (n d : ℕ) : ℤ → ℕ
  | .ofNat m => (2 * n * 10 ^ m + d) / (2 * d)
  | .negSucc m => (2 * n + d * 10 ^ (m + 1)) / (2 * d * 10 ^ (m + 1))

/-- Printf `%.<prec>g` for the positive rational `n / d`: round to `prec`
significant digits, then use fixed notation when the decimal exponent lies in
`[-4, prec)` and scientific notation otherwise, stripping trailing fractional
zeros. -/
def formatGPos (prec : ℕ) (n d : ℕ) : String :=
  let e : ℤ := decExp n d
  let d0 : ℕ := roundScaled n d ((prec : ℤ) - 1 - e)
  let dd : ℕ := if d0 = 10 ^ prec then 10 ^ (prec - 1) else d0
  let e : ℤ := if d0 = 10 ^ prec then e + 1 else e
  let ds : String := toString dd
  if e < -4 ∨ (prec : ℤ) ≤ e then
    let mantissa := ds.take 1 ++ (if prec > 1 then "." ++ ds.drop 1 else "")
    dropTrailing (· = '.') (dropTrailing (· = '0') mantissa) ++ expSuffix e
  else if 0 ≤ e then
    let ip := ds.take (e.toNat + 1)
    let fp := ds.drop (e.toNat + 1)
    if fp.isEmpty then ip
    else dropTrailing (· = '.') (dropTrailing (· = '0') (ip ++ "." ++ fp))
  else
    dropTrailing (· = '.') (dropTrailing (· = '0')
      ("0." ++ String.mk (List.replicate (e.natAbs - 1) '0') ++ ds))

/-- Model of `snprintf(buf, _, "%.<prec>g", num)` on a finite double modelled
as a rational (printf's round-to-even tie break is modelled as ordinary
rounding; ties do not occur for the exactly-representable inputs used here). -/
def formatG (prec : ℕ) (q : ℚ) : String :=
  if q.num = 0 then "0"
  else if q.num < 0 then "-" ++ formatGPos prec q.num.natAbs q.den
  else formatGPos prec q.num.natAbs q.den

/-- The `LUA_TNUMBER` case of `serializeValueToJson`: the `"nan"`, `"inf"`,
`"-inf"` sentinel strings, integral values via
`std::to_string((long long)num)`, all other values via `%.14g`. -/
def serializeNumberJson : LuauNumber → String
  | .nan => "\"nan\""
  | .inf true => "\"inf\""
  | .inf false => "\"-inf\""
  | .finite q =>
    if mkRat (truncInt q) 1 = q then toString (truncInt q) else formatG 14 q

/-- One vector component in `serializeValueToJson`: like the number case but
with `%.7g` and no integral special case. -/
def serializeVecComponent : LuauNumber → String
  | .nan => "\"nan\""
  | .inf true => "\"inf\""
  | .inf false => "\"-inf\""
  | .finite q => formatG 7 q

/-- The collaborator VM's textual rendering of a number (`lua_tostring` uses
`"%.14g"`; glibc printf renders non-finite values as `nan`, `inf`, `-inf`). -/
def numberDisplay : LuauNumber → String
  | .nan => "nan"
  | .inf true => "inf"
  | .inf false => "-inf"
  | .finite q => formatG 14 q

-- ============================================================================
-- Runtime value model
-- ============================================================================

/-- A key observed while iterating a table with `lua_next`: a number, a
string, or any other kind carrying the collaborator runtime's default textual
conversion of it (`luaL_tolstring`). -/
inductive LuauKey where
  | num (q : ℚ)
  | str (s : String)
  | other (conv : String)
  deriving DecidableEq, Repr

/-- A Luau runtime value as seen by the serializer.  Tables are identified by
their heap address (`lua_topointer`). -/
inductive LuauValue where
  | nil
  | boolean (b : Bool)
  | number (n : LuauNumber)
  | str (s : String)
  | table (addr : ℕ)
  | func
  | userdata
  | thread
  | vector (comps : List LuauNumber)
  | buffer (size : ℕ)
  deriving DecidableEq, Repr

/-- The table heap: address `a` denotes the table whose `lua_next` iteration
yields the pairs `heap[a]`, in that order. -/
abbrev Heap := List (List (LuauKey × LuauValue))

/-- The `lua_next` iteration source for a table address: the pair list stored
at that address (an out-of-heap address iterates as empty). -/
def heapPairs (heap : Heap) (addr : ℕ) : List (LuauKey × LuauValue) :=
  heap.getD addr []

-- ============================================================================
-- The JSON serializer (serializeValueToJson / serializeTableToJson)
-- ============================================================================

/-- One key test of the table pre-pass: `lua_isnumber(L, -2)` together with
`lua_tonumber(L, -2) == arrayIndex` (the pass clears `isArray` when this
fails).  The collaborator's numeric-string coercion in `lua_isnumber` is not
modelled: a string key counts as non-numeric. -/
def keyIsIndex (k : LuauKey) (i : ℕ) : Bool :=
  match k with
  | .num q => decide (q = (i : ℚ))
  | .str _ => false
  | .other _ => false

/-- The first `lua_next` pass of `serializeTableToJson`: `isArray` stays true
exactly while each visited key matches the running `arrayIndex` counter. -/
def isArrayCheck : ℕ → List (LuauKey × LuauValue) → Bool
  | _, [] => true
  | i, (k, _) :: rest => keyIsIndex k i && isArrayCheck (i + 1) rest

/-- Object-key rendering in `serializeTableToJson`: string keys verbatim,
numeric keys as `std::to_string((long long)key)`, anything else via the
runtime's default conversion `luaL_tolstring`. -/
def keyToString : LuauKey → String
  | .str s => s
  | .num q => toString (truncInt q)
  | .other conv => conv

/-- The non-table cases of `serializeValueToJson` (the C++ switch). -/
def serializeScalarJson : LuauValue → String
  | .nil => "\x7b\"type\":\"nil\"\x7d"
  | .boolean b =>
    "\x7b\"type\":\"boolean\",\"value\":" ++ (cond b "true" "false") ++ "\x7d"
  | .number n => "\x7b\"type\":\"number\",\"value\":" ++ serializeNumberJson n ++ "\x7d"
  | .str s => "\x7b\"type\":\"string\",\"value\":" ++ jsonStringLit s ++ "\x7d"
  | .func => "\x7b\"type\":\"function\"\x7d"
  | .userdata => "\x7b\"type\":\"userdata\"\x7d"
  | .thread => "\x7b\"type\":\"thread\"\x7d"
  | .vector comps =>
    "\x7b\"type\":\"vector\",\"value\":[" ++ commaJoin (comps.map serializeVecComponent) ++ "]\x7d"
  | .buffer size => "\x7b\"type\":\"buffer\",\"size\":" ++ toString size ++ "\x7d"
  | .table _ => ""

/-- The circular marker emitted on a back edge. -/
def circularJson : String := "\x7b\"type\":\"circular\"\x7d"

/-- Serialize-all loop: apply `f` to each element, failing if any application
fails (the fuel-exhaustion marker of the model propagates outward). -/
def traverseOption {α β : Type} (f : α → Option β) : List α → Option (List β)
  | [] => some []
  | a :: l =>
    match f a with
    | none => none
    | some b =>
      match traverseOption f l with
      | none => none
      | some bs => some (b :: bs)

/-- `serializeValueToJson` / `serializeTableToJson`, with the recursion depth
made explicit as fuel (the C++ recursion has no depth counter; the
termination theorem shows `heap.length + 1` fuel always suffices).  `seen` is
the visited-identity stack: a table already on it serializes to the circular
marker without being descended into; otherwise its address is pushed for the
duration of the descent into its children (push before, pop after — here:
children are serialized with `seen ++ [addr]`). -/
def serializeValueFuel (heap : Heap) : ℕ → LuauValue → List ℕ → Option String
  | 0, v, _ =>
    match v with
    | .table _ => none
    | v => some (serializeScalarJson v)
  | fuel + 1, v, seen =>
    match v with
    | .table addr =>
      if addr ∈ seen then some circularJson
      else
        let pairs := heapPairs heap addr
        let seen' := seen ++ [addr]
        let isArr := isArrayCheck 1 pairs
        let head := "\x7b\"type\":\"table\",\"isArray\":" ++
          (cond isArr "true" "false") ++ ",\"value\":"
        if pairs = [] then some (head ++ (cond isArr "[]" "\x7b\x7d") ++ "\x7d")
        else if isArr then
          (traverseOption (fun p => serializeValueFuel heap fuel p.2 seen') pairs).map
            fun items => head ++ "[" ++ commaJoin items ++ "]\x7d"
        else
          (traverseOption (fun p =>
              (serializeValueFuel heap fuel p.2 seen').map
                fun s => jsonStringLit (keyToString p.1) ++ ":" ++ s) pairs).map
            fun entries => head ++ "\x7b" ++ commaJoin entries ++ "\x7d\x7d"
    | v => some (serializeScalarJson v)

/-- One top-level serializer call: a fresh visited stack and enough fuel for
any well-formed heap. -/
def serializeTop (heap : Heap) (v : LuauValue) : String :=
  (serializeValueFuel heap (heap.length + 1) v []).getD ""

/-- Table references inside `v` stay within the heap. -/
def valueOK (heap : Heap) : LuauValue → Bool
  | .table addr => addr < heap.length
  | _ => true

/-- Every value stored in every table of the heap stays within the heap. -/
def heapOK (heap : Heap) : Bool :=
  heap.all fun pairs => pairs.all fun p => valueOK heap p.2

/-- No duplicate addresses (the visited stack only ever holds distinct
addresses, since an address is pushed only after a failed membership test). -/
def noDupB : List ℕ → Bool
  | [] => true
  | a :: l => (!decide (a ∈ l)) && noDupB l

-- ============================================================================
-- Print capture (playgroundPrint)
-- ============================================================================

/-- Model of the collaborator runtime's default textual conversion
(`luaL_tolstring`); reference addresses are abstracted.  Only the scalar
cases matter for the claims below. -/
def luaToDisplay : LuauValue → String
  | .nil => "nil"
  | .boolean b => cond b "true" "false"
  | .number n => numberDisplay n
  | .str s => s
  | .table addr => "table: 0x" ++ toString addr
  | .func => "function: 0x0"
  | .userdata => "userdata: 0x0"
  | .thread => "thread: 0x0"
  | .vector comps => String.intercalate ", " (comps.map numberDisplay)
  | .buffer _ => "buffer: 0x0"

/-- The structured snapshot of one print call: each argument serialized with
a fresh visited stack, collected into a JSON array. -/
def printValuesJson (heap : Heap) (args : List LuauValue) : String :=
  "[" ++ commaJoin (args.map (serializeTop heap)) ++ "]"

/-- The human-readable line of one print call: the arguments converted to
text and tab-joined. -/
def lineOf (args : List LuauValue) : String :=
  tabJoin (args.map luaToDisplay)

/-- The print-capture buffers (`g_outputBuffer` and `g_printCalls`). -/
structure PrintState where
  outputBuffer : String
  printCalls : List String
  deriving DecidableEq, Repr

/-- One call of `playgroundPrint`: push the structured snapshot, then append
the tab-joined line to the transcript, preceded by a newline only when the
transcript is already non-empty. -/
def playgroundPrint (heap : Heap) (st : PrintState) (args : List LuauValue) : PrintState :=
  let valuesJson := printValuesJson heap args
  let line := lineOf args
  let ob := if st.outputBuffer = "" then line else st.outputBuffer ++ "\n" ++ line
  ⟨ob, st.printCalls ++ [valuesJson]⟩

/-- The buffers produced by a sequence of print calls within one execution
(both buffers are cleared at the start of `luau_execute`). -/
def runPrints (heap : Heap) (calls : List (List LuauValue)) : PrintState :=
  calls.foldl (playgroundPrint heap) ⟨"", []⟩

/-- Transcript evolution alone: the fold of the
`if (!g_outputBuffer.empty()) g_outputBuffer += "\n"; g_outputBuffer += line`
step over the per-call lines. -/
def foldBuf : String → List String → String
  | b, [] => b
  | b, line :: rest => foldBuf (if b = "" then line else b ++ "\n" ++ line) rest

-- ============================================================================
-- Module registry and resolution
-- ============================================================================

/-- Map update `m[name] = source` on an association-list model of
`std::unordered_map` (overwrite, never merge). -/
def insertAssoc : List (String × String) → String → String → List (String × String)
  | [], k, v => [(k, v)]
  | (k', v') :: rest, k, v =>
    if k' = k then (k, v) :: rest else (k', v') :: insertAssoc rest k v

/-- Map lookup `m.find(name)` on the association-list model. -/
def lookupAssoc : List (String × String) → String → Option String
  | [], _ => none
  | (k', v') :: rest, k => if k' = k then some v' else lookupAssoc rest k

/-- First loop of `normalizeModulePath`: repeatedly strip a leading `./`. -/
def stripDotSlash : List Char → List Char
  | '.' :: '/' :: rest => stripDotSlash rest
  | l => l

/-- Second loop of `normalizeModulePath`: repeatedly strip a leading `/`. -/
def stripSlash : List Char → List Char
  | '/' :: rest => stripSlash rest
  | l => l

/-- `normalizeModulePath`: strip leading `./` pairs, then leading slashes. -/
def normalizeModulePath (path : String) : String :=
  String.mk (stripSlash (stripDotSlash path.data))

/-- The prefix of the list before its last `.`, if any (the `rfind('.')` +
`substr(0, dotPos)` step of `findModule`). -/
def lastDotSplit : List Char → Option (List Char)
  | [] => none
  | c :: rest =>
    match lastDotSplit rest with
    | some r => some (c :: r)
    | none => if c = '.' then some [] else none

/-- `findModule`: normalize, then probe the registry with the exact name, the
name plus each supported extension, and — when the name contains a dot — the
same three probes on the stem with the trailing extension stripped once.
Returns the winning key together with its source text. -/
def findModule (mods : List (String × String)) (moduleName : String) :
    Option (String × String) :=
  let normalized := normalizeModulePath moduleName
  match lookupAssoc mods normalized with
  | some src => some (normalized, src)
  | none =>
  match lookupAssoc mods (normalized ++ ".luau") with
  | some src => some (normalized ++ ".luau", src)
  | none =>
  match lookupAssoc mods (normalized ++ ".lua") with
  | some src => some (normalized ++ ".lua", src)
  | none =>
  match lastDotSplit normalized.data with
  | none => none
  | some stem =>
    let withoutExt := String.mk stem
    match lookupAssoc mods withoutExt with
    | some src => some (withoutExt, src)
    | none =>
    match lookupAssoc mods (withoutExt ++ ".luau") with
    | some src => some (withoutExt ++ ".luau", src)
    | none =>
    match lookupAssoc mods (withoutExt ++ ".lua") with
    | some src => some (withoutExt ++ ".lua", src)
    | none => none

/-- `PlaygroundFileResolver::findSource`: the same normalization and probe
order as `findModule`, over the analysis-side `sources` map, returning the
resolved key. -/
def findSource (sources : List (String × String)) (path : String) : Option String :=
  let normalized := normalizeModulePath path
  if (lookupAssoc sources normalized).isSome then some normalized
  else if (lookupAssoc sources (normalized ++ ".luau")).isSome then some (normalized ++ ".luau")
  else if (lookupAssoc sources (normalized ++ ".lua")).isSome then some (normalized ++ ".lua")
  else
    match lastDotSplit normalized.data with
    | none => none
    | some stem =>
      let withoutExt := String.mk stem
      if (lookupAssoc sources withoutExt).isSome then some withoutExt
      else if (lookupAssoc sources (withoutExt ++ ".luau")).isSome then
        some (withoutExt ++ ".luau")
      else if (lookupAssoc sources (withoutExt ++ ".lua")).isSome then
        some (withoutExt ++ ".lua")
      else none

/-- `PlaygroundFileResolver::readSource`: resolve, then read the stored text. -/
def readSource (sources : List (String × String)) (name : String) : Option String :=
  match findSource sources name with
  | some resolved => lookupAssoc sources resolved
  | none => none

/-- The two module registries: `g_modules` (execution / require) and
`g_fileResolver->sources` (analysis; empty before the analysis controller is
first initialized). -/
structure PlaygroundState where
  modules : List (String × String)
  sources : List (String × String)
  deriving DecidableEq, Repr

/-- `luau_add_module`: stores into `g_modules` only. -/
def luau_add_module (st : PlaygroundState) (name source : String) : PlaygroundState :=
  { st with modules := insertAssoc st.modules name source }

/-- `luau_set_source`: stores into the analysis resolver's sources and also
into `g_modules` for require. -/
def luau_set_source (st : PlaygroundState) (name source : String) : PlaygroundState :=
  { st with
    sources := insertAssoc st.sources name source,
    modules := insertAssoc st.modules name source }

-- ============================================================================
-- Execution (luau_execute)
-- ============================================================================

/-- How one run of the collaborator VM ends, as observed by `luau_execute`:
state-creation failure, compile failure (`luau_compile` returning null), load
failure (`luau_load` nonzero, whose message may be missing), a script error
caught by `lua_pcall` (the message produced by the error handler, possibly
missing), a host-level C++ exception (with or without a `what()` text), or
success. -/
inductive RunOutcome where
  | stateFail
  | compileFail
  | loadFail (msg : Option String)
  | scriptError (msg : Option String)
  | hostFaultKnown (what : String)
  | hostFaultUnknown
  | ok
  deriving DecidableEq, Repr

/-- The observable behaviour of one script run: the print calls it makes (in
order, before terminating) and how it ends.  Print calls can only happen
during the protected call, never before load. -/
structure ScriptRun where
  events : List (List LuauValue)
  outcome : RunOutcome
  deriving DecidableEq, Repr

/-- The structured result of `luau_execute` (the JSON payload's fields). -/
structure ExecResult where
  success : Bool
  output : String
  prints : List String
  error : Option String
  deriving DecidableEq, Repr

/-- `luau_execute`: clear both capture buffers, create a fresh VM state, and
run.  Pre-run failures report empty output and prints (the buffers are empty
at those points — the compile and state paths hardcode them, the load path
reads the just-cleared buffers); failures from the protected call and
host-level faults report whatever the run accumulated. -/
def luau_execute (heap : Heap) (run : ScriptRun) : ExecResult :=
  match run.outcome with
  | .stateFail => ⟨false, "", [], some "Failed to create Lua state"⟩
  | .compileFail => ⟨false, "", [], some "Compilation failed"⟩
  | .loadFail m => ⟨false, "", [], some (m.getD "Failed to load bytecode")⟩
  | .scriptError m =>
    let st := runPrints heap run.events
    ⟨false, st.outputBuffer, st.printCalls, some (m.getD "Unknown runtime error")⟩
  | .hostFaultKnown w =>
    let st := runPrints heap run.events
    ⟨false, st.outputBuffer, st.printCalls, some ("C++ exception: " ++ w)⟩
  | .hostFaultUnknown =>
    let st := runPrints heap run.events
    ⟨false, st.outputBuffer, st.printCalls, some "Unknown C++ exception"⟩
  | .ok =>
    let st := runPrints heap run.events
    ⟨true, st.outputBuffer, st.printCalls, none⟩

/-- The print calls that have happened before the failure point of a run:
none for the pre-run failures, all of them for failures during or after the
protected call. -/
def eventsBeforeFailure (run : ScriptRun) : List (List LuauValue) :=
  match run.outcome with
  | .stateFail => []
  | .compileFail => []
  | .loadFail _ => []
  | .scriptError _ => run.events
  | .hostFaultKnown _ => run.events
  | .hostFaultUnknown => run.events
  | .ok => run.events

-- ============================================================================
-- Host-level sequencing (isolation between executions)
-- ============================================================================

/-- The global environment of one VM instance (user globals). -/
abbrev GlobalEnv := List (String × LuauValue)

/-- Lookup of a global by name. -/
def lookupEnv : GlobalEnv → String → Option LuauValue
  | [], _ => none
  | (k, v) :: rest, name => if k = name then some v else lookupEnv rest name

/-- The environment of a freshly created state (`luaL_newstate` plus the
sandbox built-ins): no user globals. -/
def freshRuntimeEnv : GlobalEnv := []

/-- A script as the host sees it: its observable behaviour as a function of
the global environment of the VM instance it runs in. -/
structure ScriptBehavior where
  run : GlobalEnv → ScriptRun

/-- Host state persisting across `luau_execute` calls: the module registry
and the capture buffers left over from the previous call. -/
structure HostState where
  modules : List (String × String)
  outputBuffer : String
  printCalls : List String

/-- One host-level `luau_execute` call: a fresh, exclusively owned VM
instance is constructed (`luaL_newstate` under `unique_ptr`, released on
every exit path), so the script observes `freshRuntimeEnv`; the instance is
discarded afterwards, and only the capture buffers of the host state change. -/
def luau_execute_host (heap : Heap) (st : HostState) (s : ScriptBehavior) :
    HostState × ExecResult :=
  let r := luau_execute heap (s.run freshRuntimeEnv)
  (⟨st.modules, r.output, r.prints⟩, r)

/-- A probe script that prints the value of global `g` (nil when unset). -/
def globalProbe (g : String) : ScriptBehavior :=
  ⟨fun env => ⟨[[(lookupEnv env g).getD .nil]], .ok⟩⟩

-- ============================================================================
-- Error handler (errorHandler)
-- ============================================================================

/-- The runtime type name (`lua_typename`) of a value. -/
def luaTypename : LuauValue → String
  | .nil => "nil"
  | .boolean _ => "boolean"
  | .number _ => "number"
  | .str _ => "string"
  | .table _ => "table"
  | .func => "function"
  | .userdata => "userdata"
  | .thread => "thread"
  | .vector _ => "vector"
  | .buffer _ => "buffer"

/-- `lua_isstring`: true for strings and for numbers (which `lua_tostring`
converts in place). -/
def luaIsStringLike : LuauValue → Bool
  | .str _ => true
  | .number _ => true
  | _ => false

/-- The fallback message for error values `lua_tostring` cannot render. -/
def errorFallback (v : LuauValue) : String :=
  "(error object is a " ++ luaTypename v ++ " value)"

/-- The message part of `errorHandler`: strings verbatim, numbers via the
runtime's numeric formatting (both satisfy `lua_isstring`), everything else
via the typename fallback. -/
def errorText : LuauValue → String
  | .str s => s
  | .number n => numberDisplay n
  | .nil => errorFallback .nil
  | .boolean b => errorFallback (.boolean b)
  | .table a => errorFallback (.table a)
  | .func => errorFallback .func
  | .userdata => errorFallback .userdata
  | .thread => errorFallback .thread
  | .vector c => errorFallback (.vector c)
  | .buffer n => errorFallback (.buffer n)

/-- One `lua_getinfo(L, level, "sln", &ar)` record. -/
structure LuaDebug where
  source : Option String
  currentline : ℤ
  name : Option String
  what : Option String
  deriving DecidableEq, Repr

/-- One frame of the manually built stack trace: `\n\t`, the source if
present, `:line` if positive, then the function attribution — the function
name in quotes, `main chunk` for the main chunk, `C function` for C frames,
`?` otherwise. -/
def frameText (ar : LuaDebug) : String :=
  let t1 := "\n\t" ++ ar.source.getD ""
  let t2 := if ar.currentline > 0 then t1 ++ ":" ++ toString ar.currentline else t1
  match ar.name with
  | some n => t2 ++ " in function '" ++ n ++ "'"
  | none =>
    match ar.what with
    | some w =>
      if w = "main" then t2 ++ " in main chunk"
      else if w = "C" then t2 ++ " in C function"
      else t2 ++ " in ?"
    | none => t2 ++ " in ?"

/-- The full trace built by `errorHandler`: message, `stack traceback:`, then
one frame per `lua_getinfo` level. -/
def errorHandlerTrace (v : LuauValue) (frames : List LuaDebug) : String :=
  errorText v ++ "\nstack traceback:" ++ String.join (frames.map frameText)

-- ============================================================================
-- Helper lemmas
-- ============================================================================

theorem traverseOption_isSome {α β : Type} (f : α → Option β) (l : List α) :
    (traverseOption f l).isSome = l.all fun a => (f a).isSome := by
  induction l with
  | nil => rfl
  | cons a l ih =>
    cases h : f a with
    | none => simp [traverseOption, h]
    | some b =>
      cases hm : traverseOption f l with
      | none => simp [traverseOption, h, hm, hm ▸ ih]
      | some bs =>
        have := hm ▸ ih
        simp only [Option.isSome_some] at this
        simp [traverseOption, h, hm, ← this]

theorem noDupB_append_singleton {l : List ℕ} {a : ℕ}
    (h : noDupB l = true) (ha : a ∉ l) : noDupB (l ++ [a]) = true := by
  induction l with
  | nil => simp [noDupB]
  | cons b l ih =>
    simp only [noDupB, Bool.and_eq_true, Bool.not_eq_true',
      decide_eq_false_iff_not] at h
    have hal : a ∉ l := fun hm => ha (List.mem_cons_of_mem _ hm)
    have hba : b = a → False := fun e => ha (e ▸ List.mem_cons_self b l)
    simp only [List.cons_append, noDupB, Bool.and_eq_true, Bool.not_eq_true',
      decide_eq_false_iff_not]
    refine ⟨fun hc => ?_, ih h.2 hal⟩
    rcases List.mem_append.mp hc with hc | hc
    · exact h.1 hc
    · exact hba (List.mem_singleton.mp hc)

theorem noDupB_nodup {l : List ℕ} (h : noDupB l = true) : l.Nodup := by
  induction l with
  | nil => exact List.nodup_nil
  | cons a l ih =>
    simp only [noDupB, Bool.and_eq_true, Bool.not_eq_true',
      decide_eq_false_iff_not] at h
    exact List.nodup_cons.mpr ⟨h.1, ih h.2⟩

theorem pigeonhole_fresh {l : List ℕ} {a n : ℕ}
    (hnd : l.Nodup) (hlt : ∀ x ∈ l, x < n) (han : a < n) (hal : a ∉ l) :
    l.length + 1 ≤ n := by
  have hnd' : (a :: l).Nodup := List.nodup_cons.mpr ⟨hal, hnd⟩
  have hsub : (a :: l).toFinset ⊆ Finset.range n := by
    intro x hx
    rw [List.mem_toFinset] at hx
    rw [Finset.mem_range]
    rcases List.mem_cons.mp hx with h | h
    · exact h ▸ han
    · exact hlt x h
  have hcard := Finset.card_le_card hsub
  rw [List.toFinset_card_of_nodup hnd', Finset.card_range] at hcard
  simpa using hcard

theorem serialize_fuel_sufficient (heap : Heap) (hh : heapOK heap = true) :
    ∀ fuel (v : LuauValue) (seen : List ℕ), valueOK heap v = true →
      noDupB seen = true → (∀ a ∈ seen, a < heap.length) →
      heap.length - seen.length < fuel →
      (serializeValueFuel heap fuel v seen).isSome = true := by
  intro fuel
  induction fuel with
  | zero => intro v seen _ _ _ hf; omega
  | succ f ih =>
    intro v seen hv hnd hbound hf
    cases v with
    | table addr =>
      by_cases hmem : addr ∈ seen
      · simp [serializeValueFuel, hmem]
      · have haddr : addr < heap.length := by simpa [valueOK] using hv
        have hlen : seen.length + 1 ≤ heap.length :=
          pigeonhole_fresh (noDupB_nodup hnd) hbound haddr hmem
        have hnd' : noDupB (seen ++ [addr]) = true := noDupB_append_singleton hnd hmem
        have hbound' : ∀ a ∈ seen ++ [addr], a < heap.length := by
          intro a ha
          rcases List.mem_append.mp ha with ha | ha
          · exact hbound a ha
          · exact (List.mem_singleton.mp ha) ▸ haddr
        have hf' : heap.length - (seen ++ [addr]).length < f := by
          rw [List.length_append, List.length_singleton]
          omega
        have hpairs : heapPairs heap addr ∈ heap := by
          have : heapPairs heap addr = heap[addr] := by
            unfold heapPairs
            exact List.getD_eq_getElem heap [] haddr
          rw [this]
          exact heap.getElem_mem haddr
        have hchild : ∀ p ∈ heapPairs heap addr, valueOK heap p.2 = true := by
          intro p hp
          have := (List.all_eq_true.mp hh) _ hpairs
          exact (List.all_eq_true.mp this) _ hp
        have hser : ∀ p ∈ heapPairs heap addr,
            (serializeValueFuel heap f p.2 (seen ++ [addr])).isSome = true := by
          intro p hp
          exact ih p.2 (seen ++ [addr]) (hchild p hp) hnd' hbound' hf'
        by_cases hemp : heapPairs heap addr = []
        · simp [serializeValueFuel, hmem, hemp]
        · cases harr : isArrayCheck 1 (heapPairs heap addr) with
          | true =>
            simp only [serializeValueFuel, hmem, if_false, hemp, harr, if_true,
              Option.isSome_map', traverseOption_isSome, List.all_eq_true]
            intro p hp
            exact hser p hp
          | false =>
            simp only [serializeValueFuel, hmem, if_false, hemp, harr,
              Bool.false_eq_true, if_true, Option.isSome_map', traverseOption_isSome,
              List.all_eq_true]
            intro p hp
            exact hser p hp
    | nil => simp [serializeValueFuel]
    | boolean b => simp [serializeValueFuel]
    | number n => simp [serializeValueFuel]
    | str s => simp [serializeValueFuel]
    | func => simp [serializeValueFuel]
    | userdata => simp [serializeValueFuel]
    | thread => simp [serializeValueFuel]
    | vector comps => simp [serializeValueFuel]
    | buffer size => simp [serializeValueFuel]

theorem tableHead_append_ne_circular (r : String) :
    "\x7b\"type\":\"table\",\"isArray\":" ++ r ≠ circularJson := by
  intro h
  have hd : ("\x7b\"type\":\"table\",\"isArray\":".data ++ r.data) = circularJson.data := by
    have := congrArg String.data h
    exact this
  have h9 : ("\x7b\"type\":\"table\",\"isArray\":".data ++ r.data)[9]? = some 't' := by
    rw [List.getElem?_append_left (by decide)]
    decide
  rw [hd] at h9
  have : circularJson.data[9]? = some 'c' := by decide
  rw [this] at h9
  exact absurd (Option.some.inj h9) (by decide)

theorem serialize_table_circular_iff (heap : Heap) (fuel addr : ℕ) (seen : List ℕ)
    (out : String)
    (h : serializeValueFuel heap (fuel + 1) (.table addr) seen = some out) :
    out = circularJson ↔ addr ∈ seen := by
  constructor
  · intro hout
    by_contra hmem
    subst hout
    simp only [serializeValueFuel, hmem, if_false] at h
    by_cases hemp : heapPairs heap addr = []
    · simp only [hemp, if_true] at h
      exact absurd (Option.some.inj h) (by decide)
    · simp only [hemp, if_false] at h
      cases harr : isArrayCheck 1 (heapPairs heap addr) with
      | true =>
        rw [harr] at h
        simp only [if_true] at h
        rcases Option.map_eq_some'.mp h with ⟨items, _, hout⟩
        exact tableHead_append_ne_circular _ (by simpa [String.append_assoc] using hout)
      | false =>
        rw [harr] at h
        simp only [Bool.false_eq_true, if_false] at h
        rcases Option.map_eq_some'.mp h with ⟨entries, _, hout⟩
        exact tableHead_append_ne_circular _ (by simpa [String.append_assoc] using hout)
  · intro hmem
    simp only [serializeValueFuel, hmem, if_true] at h
    exact (Option.some.inj h).symm

theorem isArrayCheck_iff (pairs : List (LuauKey × LuauValue)) :
    ∀ i : ℕ, isArrayCheck i pairs = true ↔
      pairs.map Prod.fst = (List.range pairs.length).map fun j => LuauKey.num ((i + j : ℕ) : ℚ) := by
  induction pairs with
  | nil => intro i; simp [isArrayCheck]
  | cons p rest ih =>
    intro i
    obtain ⟨k, v⟩ := p
    rw [List.map_cons, List.length_cons, List.range_succ_eq_map, List.map_cons, List.map_map]
    have hfun : ((fun j => LuauKey.num ((i + j : ℕ) : ℚ)) ∘ Nat.succ) =
        fun j => LuauKey.num (((i + 1) + j : ℕ) : ℚ) := by
      funext j
      simp only [Function.comp_apply]
      congr 1
      push_cast
      ring
    rw [hfun]
    simp only [Nat.add_zero]
    constructor
    · intro h
      rw [isArrayCheck, Bool.and_eq_true] at h
      obtain ⟨hk, hrest⟩ := h
      have hkey : k = LuauKey.num ((i : ℕ) : ℚ) := by
        cases k with
        | num q =>
          have : q = (i : ℚ) := of_decide_eq_true (by simpa [keyIsIndex] using hk)
          rw [this]
        | str s => exact absurd hk (by simp [keyIsIndex])
        | other c => exact absurd hk (by simp [keyIsIndex])
      rw [List.cons_eq_cons]
      exact ⟨hkey, (ih (i + 1)).mp hrest⟩
    · intro h
      rw [List.cons_eq_cons] at h
      obtain ⟨hk, hrest⟩ := h
      subst hk
      rw [isArrayCheck, Bool.and_eq_true]
      exact ⟨by simp [keyIsIndex], (ih (i + 1)).mpr hrest⟩

-- ============================================================================
-- Claim theorems
-- ============================================================================

/-- C4: serialization terminates on every well-formed heap (fuel
`heap.length + 1` always suffices, for any cycle structure), and a table
occurrence is emitted as the circular marker exactly when its identity is
already on the visited stack of the current descent path (in which case it is
not descended into: the marker is the whole output of that occurrence). -/
theorem serializer_terminates_circular_iff (heap : Heap) (hh : heapOK heap = true) :
    (∀ v : LuauValue, valueOK heap v = true →
      (serializeValueFuel heap (heap.length + 1) v []).isSome = true)
    ∧ (∀ (fuel addr : ℕ) (seen : List ℕ) (out : String),
        serializeValueFuel heap (fuel + 1) (.table addr) seen = some out →
        (out = circularJson ↔ addr ∈ seen)) := by
  constructor
  · intro v hv
    exact serialize_fuel_sufficient heap hh (heap.length + 1) v [] hv rfl
      (by intro a ha; cases ha) (by simp)
  · intro fuel addr seen out h
    exact serialize_table_circular_iff heap fuel addr seen out h

/-- Witness for C4 at a concrete self-referential table. -/
theorem serializer_terminates_circular_iff_witness :
    (serializeValueFuel [[(LuauKey.num 1, LuauValue.table 0)]] 2 (.table 0) []).isSome = true
    ∧ (circularJson = circularJson ↔ (0 : ℕ) ∈ [0]) :=
  ⟨(serializer_terminates_circular_iff [[(LuauKey.num 1, LuauValue.table 0)]] (by decide)).1
      (.table 0) (by decide),
   (serializer_terminates_circular_iff [[(LuauKey.num 1, LuauValue.table 0)]] (by decide)).2
      0 0 [0] circularJson (by decide)⟩

/-- C5 (amended): the emitted `isArray` flag is true iff the keys, in
iteration order, are exactly the sequence `1, …, N` — under ascending
enumeration this coincides with the claim's key-set condition; the claim's
concrete instances hold (`[1,2,3]` arrays, `[1,2,4]` and `x` objects, `[]`
versus the object braces for the empty versus non-empty classification). -/
theorem isArray_classification :
    (∀ pairs : List (LuauKey × LuauValue),
      isArrayCheck 1 pairs = true ↔
        pairs.map Prod.fst =
          (List.range pairs.length).map fun j => LuauKey.num ((1 + j : ℕ) : ℚ))
    ∧ isArrayCheck 1 [(LuauKey.num 1, .nil), (LuauKey.num 2, .nil), (LuauKey.num 3, .nil)] = true
    ∧ isArrayCheck 1 [(LuauKey.num 1, .nil), (LuauKey.num 2, .nil), (LuauKey.num 4, .nil)] = false
    ∧ isArrayCheck 1 [(LuauKey.str "x", LuauValue.number (.finite 1))] = false
    ∧ serializeTop [[]] (.table 0) = "\x7b\"type\":\"table\",\"isArray\":true,\"value\":[]\x7d"
    ∧ serializeTop [[(LuauKey.str "x", LuauValue.number (.finite 1))]] (.table 0) =
        "\x7b\"type\":\"table\",\"isArray\":false,\"value\":\x7b\"x\":\x7b\"type\":\"number\",\"value\":1\x7d\x7d\x7d"
    ∧ serializeTop [[(LuauKey.num 1, .nil), (LuauKey.num 2, .nil), (LuauKey.num 3, .nil)]]
        (.table 0) =
        "\x7b\"type\":\"table\",\"isArray\":true,\"value\":[\x7b\"type\":\"nil\"\x7d,\x7b\"type\":\"nil\"\x7d,\x7b\"type\":\"nil\"\x7d]\x7d" := by
  exact ⟨fun pairs => isArrayCheck_iff pairs 1, by decide, by decide, by decide,
    by decide, by decide, by decide⟩

/-- Counterexample to C5 as stated: a table whose key set is exactly `{1, 2}`
(every key numeric, no gaps) but whose iteration order is `2, 1` serializes
with `isArray = false`. -/
theorem isArray_key_set_claim_fails :
    ([(LuauKey.num 2, LuauValue.nil), (LuauKey.num 1, LuauValue.nil)].map Prod.fst).Perm
      [LuauKey.num 1, LuauKey.num 2]
    ∧ serializeTop [[(LuauKey.num 2, LuauValue.nil), (LuauKey.num 1, LuauValue.nil)]]
        (.table 0) =
      "\x7b\"type\":\"table\",\"isArray\":false,\"value\":\x7b\"2\":\x7b\"type\":\"nil\"\x7d,\"1\":\x7b\"type\":\"nil\"\x7d\x7d\x7d" := by
  exact ⟨by decide, by decide⟩

/-- C8: the number encoding of the serializer — the quoted sentinel strings
for NaN and the infinities, integer literals for integral finite values,
`%.14g` text otherwise (3.0 gives 3, 3.5 gives 3.5), and `%.7g` text for
vector components. -/
theorem number_encoding :
    serializeNumberJson .nan = "\"nan\""
    ∧ serializeNumberJson (.inf true) = "\"inf\""
    ∧ serializeNumberJson (.inf false) = "\"-inf\""
    ∧ (∀ q : ℚ, mkRat (truncInt q) 1 = q →
        serializeNumberJson (.finite q) = toString (truncInt q))
    ∧ (∀ q : ℚ, mkRat (truncInt q) 1 ≠ q → serializeNumberJson (.finite q) = formatG 14 q)
    ∧ serializeTop [] (.number (.finite 3)) = "\x7b\"type\":\"number\",\"value\":3\x7d"
    ∧ serializeTop [] (.number (.finite (mkRat 7 2))) = "\x7b\"type\":\"number\",\"value\":3.5\x7d"
    ∧ serializeTop [] (.number .nan) = "\x7b\"type\":\"number\",\"value\":\"nan\"\x7d"
    ∧ (∀ q : ℚ, serializeVecComponent (.finite q) = formatG 7 q)
    ∧ serializeTop [] (.vector [.nan, .finite (mkRat 3 2), .finite 1]) =
        "\x7b\"type\":\"vector\",\"value\":[\"nan\",1.5,1]\x7d" := by
  refine ⟨rfl, rfl, rfl, fun q h => ?_, fun q h => ?_, by decide, by decide, by decide,
    fun q => rfl, by decide⟩
  · simp only [serializeNumberJson, if_pos h]
  · simp only [serializeNumberJson, if_neg h]

/-- Witness for C8 at 3 (integral) and 7/2 (non-integral). -/
theorem number_encoding_witness :
    serializeNumberJson (.finite 3) = toString (truncInt 3)
    ∧ serializeNumberJson (.finite (mkRat 7 2)) = formatG 14 (mkRat 7 2) :=
  ⟨number_encoding.2.2.2.1 3 (by decide),
   number_encoding.2.2.2.2.1 (mkRat 7 2) (by decide)⟩

/-- C10: object keys of a non-array table — numeric keys render as the
decimal text of the value truncated toward zero (1.5 becomes "1", -1.5
becomes "-1"), string keys verbatim, all other kinds via the runtime's
default textual conversion. -/
theorem object_key_rendering :
    (∀ q : ℚ, keyToString (.num q) = toString (truncInt q))
    ∧ (∀ s : String, keyToString (.str s) = s)
    ∧ (∀ c : String, keyToString (.other c) = c)
    ∧ keyToString (.num (mkRat 3 2)) = "1"
    ∧ keyToString (.num (mkRat (-3) 2)) = "-1"
    ∧ serializeTop [[(LuauKey.num (mkRat 3 2), LuauValue.nil)]] (.table 0) =
        "\x7b\"type\":\"table\",\"isArray\":false,\"value\":\x7b\"1\":\x7b\"type\":\"nil\"\x7d\x7d\x7d" := by
  exact ⟨fun q => rfl, fun s => rfl, fun c => rfl, by decide, by decide, by decide⟩

theorem lookupAssoc_insertAssoc (m : List (String × String)) (k v : String) :
    lookupAssoc (insertAssoc m k v) k = some v := by
  induction m with
  | nil => simp [insertAssoc, lookupAssoc]
  | cons p rest ih =>
    obtain ⟨k', v'⟩ := p
    by_cases h : k' = k
    · simp [insertAssoc, lookupAssoc, h]
    · simp [insertAssoc, lookupAssoc, h, ih]

/-- C1 (amended): a module registered under an already-normalized name via
`luau_set_source` is visible to both consumers — the sandbox import
resolution finds it and the analysis resolver reads its source — while
`luau_add_module` makes it visible to the execution side only, leaving the
analysis sources untouched. -/
theorem module_registration_visibility (st : PlaygroundState) (name src : String)
    (hnorm : normalizeModulePath name = name) :
    (findModule (luau_set_source st name src).modules name = some (name, src)
      ∧ readSource (luau_set_source st name src).sources name = some src)
    ∧ (findModule (luau_add_module st name src).modules name = some (name, src)
      ∧ (luau_add_module st name src).sources = st.sources) := by
  refine ⟨⟨?_, ?_⟩, ?_, rfl⟩
  · simp only [findModule, luau_set_source, hnorm, lookupAssoc_insertAssoc]
  · simp only [readSource, findSource, luau_set_source, hnorm, lookupAssoc_insertAssoc,
      Option.isSome_some, if_true, lookupAssoc_insertAssoc]
  · simp only [findModule, luau_add_module, hnorm, lookupAssoc_insertAssoc]

/-- Witness for C1 at a concrete registration. -/
theorem module_registration_visibility_witness :
    (findModule (luau_set_source ⟨[], []⟩ "m" "x").modules "m" = some ("m", "x")
      ∧ readSource (luau_set_source ⟨[], []⟩ "m" "x").sources "m" = some "x")
    ∧ (findModule (luau_add_module ⟨[], []⟩ "m" "x").modules "m" = some ("m", "x")
      ∧ (luau_add_module ⟨[], []⟩ "m" "x").sources = ([] : List (String × String))) :=
  module_registration_visibility ⟨[], []⟩ "m" "x" (by decide)

/-- Counterexample to C1 as stated: after `luau_add_module`, the analysis
resolver cannot read the module (the registration is not shared), and a
module registered under a name that normalization rewrites (here a leading
`./`) is not even resolvable by the execution side under its own raw name. -/
theorem add_module_not_visible_to_analysis :
    readSource (luau_add_module ⟨[], []⟩ "m" "x").sources "m" = none
    ∧ findModule (luau_add_module ⟨[], []⟩ "./x" "s").modules "./x" = none := by
  exact ⟨by decide, by decide⟩

/-- C3 (amended): for a registry holding a module keyed `a/b.luau` or
`a/b.lua` (the supported extensions) with the shorter probe keys not
shadowed, resolving `./<key>`, `a/b` and `/a/b` all succeed with that same
key. -/
theorem resolve_equivalent_spellings (mods : List (String × String)) (key src : String)
    (hkey : key = "a/b.luau" ∨ key = "a/b.lua")
    (hsrc : lookupAssoc mods key = some src)
    (hnoexact : lookupAssoc mods "a/b" = none)
    (hshadow : key = "a/b.lua" → lookupAssoc mods "a/b.luau" = none) :
    findModule mods ("./" ++ key) = some (key, src)
    ∧ findModule mods "a/b" = some (key, src)
    ∧ findModule mods "/a/b" = some (key, src) := by
  rcases hkey with hkey | hkey
  · subst hkey
    refine ⟨?_, ?_, ?_⟩
    · simp only [findModule]
      rw [show normalizeModulePath ("./" ++ "a/b.luau") = "a/b.luau" from by decide]
      rw [hsrc]
    · simp only [findModule]
      rw [show normalizeModulePath "a/b" = "a/b" from by decide]
      rw [show ("a/b" ++ ".luau" : String) = "a/b.luau" from by decide]
      rw [hnoexact, hsrc]
    · simp only [findModule]
      rw [show normalizeModulePath "/a/b" = "a/b" from by decide]
      rw [show ("a/b" ++ ".luau" : String) = "a/b.luau" from by decide]
      rw [hnoexact, hsrc]
  · subst hkey
    have hluau := hshadow rfl
    refine ⟨?_, ?_, ?_⟩
    · simp only [findModule]
      rw [show normalizeModulePath ("./" ++ "a/b.lua") = "a/b.lua" from by decide]
      rw [hsrc]
    · simp only [findModule]
      rw [show normalizeModulePath "a/b" = "a/b" from by decide]
      rw [show ("a/b" ++ ".luau" : String) = "a/b.luau" from by decide]
      rw [show ("a/b" ++ ".lua" : String) = "a/b.lua" from by decide]
      rw [hnoexact, hluau, hsrc]
    · simp only [findModule]
      rw [show normalizeModulePath "/a/b" = "a/b" from by decide]
      rw [show ("a/b" ++ ".luau" : String) = "a/b.luau" from by decide]
      rw [show ("a/b" ++ ".lua" : String) = "a/b.lua" from by decide]
      rw [hnoexact, hluau, hsrc]

/-- Witness for C3 on a one-module registry. -/
theorem resolve_equivalent_spellings_witness :
    findModule [("a/b.luau", "s")] ("./" ++ "a/b.luau") = some ("a/b.luau", "s")
    ∧ findModule [("a/b.luau", "s")] "a/b" = some ("a/b.luau", "s")
    ∧ findModule [("a/b.luau", "s")] "/a/b" = some ("a/b.luau", "s") :=
  resolve_equivalent_spellings [("a/b.luau", "s")] "a/b.luau" "s" (Or.inl rfl)
    (by decide) (by decide) (by decide)

/-- Counterexample to C3 as stated: with an arbitrary extension (`.txt`),
resolving the raw name succeeds but the extensionless spellings fail, so the
three resolutions do not all succeed. -/
theorem resolve_unsupported_extension_fails :
    findModule [("a/b.txt", "s")] "./a/b.txt" = some ("a/b.txt", "s")
    ∧ findModule [("a/b.txt", "s")] "a/b" = none
    ∧ findModule [("a/b.txt", "s")] "/a/b" = none := by
  exact ⟨by decide, by decide, by decide⟩

theorem append_ne_empty_left (a b : String) (h : a ≠ "") : a ++ b ≠ "" := by
  intro e
  apply h
  have hd : a.data ++ b.data = ([] : List Char) := congrArg String.data e
  rcases List.append_eq_nil.mp hd with ⟨ha, _⟩
  exact String.ext ha

theorem foldl_printCalls (heap : Heap) :
    ∀ (calls : List (List LuauValue)) (st : PrintState),
      (calls.foldl (playgroundPrint heap) st).printCalls =
        st.printCalls ++ calls.map (printValuesJson heap) := by
  intro calls
  induction calls with
  | nil => intro st; simp
  | cons c rest ih =>
    intro st
    simp only [List.foldl_cons, List.map_cons]
    rw [ih]
    simp [playgroundPrint]

theorem foldl_buffer_eq_foldBuf (heap : Heap) :
    ∀ (calls : List (List LuauValue)) (st : PrintState),
      (calls.foldl (playgroundPrint heap) st).outputBuffer =
        foldBuf st.outputBuffer (calls.map lineOf) := by
  intro calls
  induction calls with
  | nil => intro st; rfl
  | cons c rest ih =>
    intro st
    simp only [List.foldl_cons, List.map_cons, foldBuf]
    rw [ih]
    rfl

theorem foldBuf_ne : ∀ (lines : List String) (b : String), b ≠ "" →
    foldBuf b lines = newlineJoin (b :: lines) := by
  intro lines
  induction lines with
  | nil => intro b hb; rfl
  | cons l rest ih =>
    intro b hb
    rw [foldBuf, if_neg hb, ih _ (append_ne_empty_left _ _ (append_ne_empty_left _ _ hb))]
    cases rest with
    | nil => rfl
    | cons r rs => simp [newlineJoin, String.append_assoc]

theorem foldBuf_empty : ∀ lines : List String,
    foldBuf "" lines = newlineJoin (lines.dropWhile fun s => s == "") := by
  intro lines
  induction lines with
  | nil => rfl
  | cons l rest ih =>
    by_cases hl : l = ""
    · subst hl
      rw [foldBuf, if_pos rfl]
      simpa using ih
    · rw [foldBuf, if_pos rfl, foldBuf_ne rest l hl]
      have : (l :: rest).dropWhile (fun s => s == "") = l :: rest := by
        rw [List.dropWhile_cons_of_neg]
        simpa using hl
      rw [this]

/-- C6 (amended): over any sequence of output-routine calls in one session,
the structured prints list holds exactly one snapshot per call, in call
order, each argument serialized with a fresh visited stack; the plain-text
transcript equals the per-call lines joined by single newlines after
discarding the empty lines produced before the first non-empty line (the
newline separator is only emitted once the transcript is non-empty). -/
theorem print_transcript_prints_shape (heap : Heap) (calls : List (List LuauValue)) :
    (runPrints heap calls).printCalls = calls.map (printValuesJson heap)
    ∧ (runPrints heap calls).outputBuffer =
        newlineJoin ((calls.map lineOf).dropWhile fun s => s == "") := by
  constructor
  · rw [runPrints, foldl_printCalls]
    rfl
  · rw [runPrints, foldl_buffer_eq_foldBuf]
    exact foldBuf_empty _

/-- Counterexample to C6 as stated: an argument-less print call followed by
one printing `a` yields the transcript `a`, not the newline-join of the two
per-call lines (which is a newline followed by `a`). -/
theorem transcript_newline_claim_fails :
    (runPrints [] [[], [LuauValue.str "a"]]).outputBuffer
      ≠ newlineJoin ([[], [LuauValue.str "a"]].map lineOf) := by
  decide

/-- C7: whenever a run fails — load failure, script error caught by the
protected call, or a host-level C++ exception (also the compile and
state-creation failures) — the result carries success = false, an error
message, and exactly the transcript and prints accumulated before that
failure point; no failure escapes `luau_execute`, which is a total function
into `ExecResult`. -/
theorem failure_preserves_partial_output (heap : Heap) (run : ScriptRun)
    (h : run.outcome ≠ .ok) :
    (luau_execute heap run).success = false
    ∧ ((luau_execute heap run).error).isSome = true
    ∧ (luau_execute heap run).output = (runPrints heap (eventsBeforeFailure run)).outputBuffer
    ∧ (luau_execute heap run).prints = (runPrints heap (eventsBeforeFailure run)).printCalls := by
  obtain ⟨events, outcome⟩ := run
  cases outcome with
  | ok => exact absurd rfl h
  | stateFail => exact ⟨rfl, rfl, rfl, rfl⟩
  | compileFail => exact ⟨rfl, rfl, rfl, rfl⟩
  | loadFail m => exact ⟨rfl, rfl, rfl, rfl⟩
  | scriptError m => exact ⟨rfl, rfl, rfl, rfl⟩
  | hostFaultKnown w => exact ⟨rfl, rfl, rfl, rfl⟩
  | hostFaultUnknown => exact ⟨rfl, rfl, rfl, rfl⟩

/-- Witness for C7 at a script-error run with one pre-failure print. -/
theorem failure_preserves_partial_output_witness :
    (luau_execute [] ⟨[[LuauValue.str "a"]], .scriptError none⟩).success = false
    ∧ ((luau_execute [] ⟨[[LuauValue.str "a"]], .scriptError none⟩).error).isSome = true
    ∧ (luau_execute [] ⟨[[LuauValue.str "a"]], .scriptError none⟩).output =
        (runPrints [] (eventsBeforeFailure ⟨[[LuauValue.str "a"]], .scriptError none⟩)).outputBuffer
    ∧ (luau_execute [] ⟨[[LuauValue.str "a"]], .scriptError none⟩).prints =
        (runPrints [] (eventsBeforeFailure ⟨[[LuauValue.str "a"]], .scriptError none⟩)).printCalls :=
  failure_preserves_partial_output [] ⟨[[LuauValue.str "a"]], .scriptError none⟩ (by decide)

/-- C9: each execution constructs a fresh, exclusively owned runtime
instance, so no runtime state flows from one execution into the next: the
second result is the same whether or not a first execution happened, every
execution evaluates its script on the fresh environment, and a probe reading
a global after any previous execution sees nil. -/
theorem execution_isolation (heap : Heap) (st : HostState) (s1 s2 : ScriptBehavior) :
    ((luau_execute_host heap (luau_execute_host heap st s1).1 s2).2
        = (luau_execute_host heap st s2).2)
    ∧ ((luau_execute_host heap st s2).2 = luau_execute heap (s2.run freshRuntimeEnv))
    ∧ (∀ g : String,
        (luau_execute_host heap (luau_execute_host heap st s1).1 (globalProbe g)).2.prints
          = [printValuesJson heap [LuauValue.nil]]) := by
  exact ⟨rfl, rfl, fun g => rfl⟩

theorem listStartsWith_append (t r : List Char) :
    listStartsWith (t ++ r) t = true := by
  induction t with
  | nil => cases r with
    | nil => rfl
    | cons c cs => rfl
  | cons a as ih => simp [listStartsWith, ih]

theorem strEndsWith_append (p t : String) : strEndsWith (p ++ t) t = true := by
  unfold strEndsWith
  have hd : (p ++ t).data = p.data ++ t.data := rfl
  rw [hd, List.reverse_append]
  exact listStartsWith_append _ _

/-- C2 (amended): a non-string error value that is also not a number (which
`lua_tostring` accepts and formats as text) is rendered as the fallback
message with the runtime's type name; and every frame of the reconstructed
trace ends with the quoted enclosing function name, with `main chunk`, with
`C function` (the code's wording for native frames), or with `?`. -/
theorem error_handler_format (v : LuauValue) (ar : LuaDebug) :
    (luaIsStringLike v = false →
      errorText v = "(error object is a " ++ luaTypename v ++ " value)")
    ∧ ((∃ n, ar.name = some n
          ∧ strEndsWith (frameText ar) (" in function '" ++ n ++ "'") = true)
        ∨ strEndsWith (frameText ar) " in main chunk" = true
        ∨ strEndsWith (frameText ar) " in C function" = true
        ∨ strEndsWith (frameText ar) " in ?" = true) := by
  constructor
  · intro h
    cases v <;> first
      | rfl
      | exact absurd h (by simp [luaIsStringLike])
  · obtain ⟨src, line, name, what⟩ := ar
    cases name with
    | some n =>
      left
      refine ⟨n, rfl, ?_⟩
      simp only [frameText, String.append_assoc]
      exact strEndsWith_append _ _
    | none =>
      cases what with
      | none =>
        right; right; right
        simp only [frameText]
        exact strEndsWith_append _ _
      | some w =>
        by_cases hm : w = "main"
        · right; left
          simp only [frameText, hm, if_pos rfl]
          exact strEndsWith_append _ _
        · by_cases hc : w = "C"
          · right; right; left
            simp only [frameText, hm, if_neg hm, hc, if_pos rfl]
            exact strEndsWith_append _ _
          · right; right; right
            simp only [frameText, if_neg hm, if_neg hc]
            exact strEndsWith_append _ _

/-- Witness for C2: a table error value and a main-chunk frame. -/
theorem error_handler_format_witness :
    errorText (.table 0) = "(error object is a " ++ luaTypename (.table 0) ++ " value)"
    ∧ ((∃ n, (⟨none, -1, none, some "main"⟩ : LuaDebug).name = some n
          ∧ strEndsWith (frameText ⟨none, -1, none, some "main"⟩)
              (" in function '" ++ n ++ "'") = true)
        ∨ strEndsWith (frameText ⟨none, -1, none, some "main"⟩) " in main chunk" = true
        ∨ strEndsWith (frameText ⟨none, -1, none, some "main"⟩) " in C function" = true
        ∨ strEndsWith (frameText ⟨none, -1, none, some "main"⟩) " in ?" = true) :=
  ⟨(error_handler_format (.table 0) ⟨none, -1, none, some "main"⟩).1 (by decide),
   (error_handler_format (.table 0) ⟨none, -1, none, some "main"⟩).2⟩

/-- Counterexample to C2 as stated: a numeric error value is not a string,
yet the handler renders it as its numeric text rather than the fallback
message; and a C-function frame ends with `C function`, which is none of the
claim's endings (function name — absent here — `main chunk`,
`native function`, `?`). -/
theorem error_handler_claim_fails :
    errorText (.number (.finite 42)) = "42"
    ∧ errorText (.number (.finite 42)) ≠ "(error object is a number value)"
    ∧ frameText ⟨some "[C]", -1, none, some "C"⟩ = "\n\t[C] in C function"
    ∧ (⟨some "[C]", -1, none, some "C"⟩ : LuaDebug).name = none
    ∧ strEndsWith (frameText ⟨some "[C]", -1, none, some "C"⟩) "main chunk" = false
    ∧ strEndsWith (frameText ⟨some "[C]", -1, none, some "C"⟩) "native function" = false
    ∧ strEndsWith (frameText ⟨some "[C]", -1, none, some "C"⟩) "?" = false := by
  exact ⟨by decide, by decide, by decide, rfl, by decide, by decide, by decide⟩
